import Mathlib

set_option maxRecDepth 8000

/-!
Shallow embedding of the VGM/NSF playback engine of `src/src/vgm_file.cpp`
(class `VgmFile`).  The file image is a borrowed, read-only list of bytes;
machine integers are modelled as `Nat` with explicit `% 256` / `% 2^32`
reductions where the C code uses `uint8_t` / `uint32_t`.  The sound chips
(AY-3-8910, NES APU) and the 6502 CPU live outside this translation unit;
their interaction with `VgmFile` is recorded as explicit access events or
abstracted by oracles, exactly at the call sites of the source.
-/

namespace VgmSpec

/-- One byte of the file image, as the C code's `uint8_t` dereference
`m_dataPtr[k]`: out-of-image positions model the raw pointer read with the
default value 0 (the code itself performs no bounds check). -/
def byteAt (d : List Nat) (k : Nat) : Nat := d.getD k 0 % 256

/-- Little-endian 32-bit read at byte offset `off`, as done by the packed
`uint32_t` header fields. -/
def readU32 (d : List Nat) (off : Nat) : Nat :=
  byteAt d off + 256 * byteAt d (off + 1) + 65536 * byteAt d (off + 2) +
    16777216 * byteAt d (off + 3)

/-- A register-level access that `VgmFile::nextCommand` performs on one of the
two chip objects.  `psgWrite` is the unguarded `m_msxChip->write` of command
0xA0, `nesWrite` the unguarded `m_nesChip->write` of command 0xB4, and
`nesBlock` the `m_nesChip->setDataBlock` of command 0x67 (which the source
guards with `if ( m_nesChip )`). -/
inductive ChipAccess where
  | psgWrite (reg val : Nat) : ChipAccess
  | nesWrite (reg val : Nat) : ChipAccess
  | nesBlock (start len : Nat) : ChipAccess
deriving DecidableEq

/-- Playback state of a `VgmFile` session: the members of class `VgmFile`
that the decoding paths read or write.  `dataPos` is the byte cursor
`m_dataPtr - m_rawData`; `hasMsxChip` / `hasNesChip` record whether
`m_msxChip` / `m_nesChip` are non-null; `isNsf` whether `m_nsfHeader` is
bound, and `ntscPlaySpeed` that header's play cadence.  Two fields are ghost
instrumentation, not class members, and influence no behaviour: `jumps`
counts how many times the 0x66 handler rewound the cursor to the loop
offset, and `playCalls` indexes the successive `callSubroutine` invocations
of the NSF decode loop into its result oracle. -/
structure VgmState where
  rawData : List Nat
  size : Nat
  dataPos : Nat
  waitSamples : Nat
  samplesPlayed : Nat
  duration : Nat
  loopOffset : Nat
  loops : Nat
  writeCounter : Nat
  writeScaler : Nat
  sampleSum : Nat
  sampleSumValid : Bool
  hasMsxChip : Bool
  hasNesChip : Bool
  isNsf : Bool
  ntscPlaySpeed : Nat
  playCalls : Nat
  jumps : Nat
deriving DecidableEq

/-- Result of one `VgmFile::nextCommand` step: the `bool` return value, the
updated state, the list of absolute byte positions the step dereferenced in
the image (command byte, operand bytes read by the handler and by the
enabled `LOG` calls), and the chip accesses it performed. -/
structure StepResult where
  ok : Bool
  st : VgmState
  reads : List Nat
  acc : List ChipAccess
deriving DecidableEq

/-- The data-block length field of command 0x67:
`m_dataPtr[3] + (m_dataPtr[4] << 8) + (m_dataPtr[5] << 16) + (m_dataPtr[6] << 24)`. -/
def blockLenAt (d : List Nat) (p : Nat) : Nat :=
  byteAt d (p + 3) + 256 * byteAt d (p + 4) + 65536 * byteAt d (p + 5) +
    16777216 * byteAt d (p + 6)

/-- The command byte at the cursor: `uint8_t cmd = *m_dataPtr`. -/
def cmdAt (s : VgmState) : Nat := byteAt s.rawData s.dataPos

/-- `VgmFile::nextCommand` (vgm_file.cpp lines 184-383).  The branches follow
the `switch` and its `default` chain of range tests in source order; the
final reserved range drops the tautological `(uint16_t)cmd <= 0xFF` guard
(the command byte is a `uint8_t`).  The 0x61 operand
`m_dataPtr[1] | (m_dataPtr[2] << 8)` is written `lo + 256 * hi`, equal on
bytes below 256; `cmd & 0x0F` of the 0x70-0x7F waits is `cmd % 16`. -/
def nextCommand (s : VgmState) : StepResult :=
  if cmdAt s = 0x31 then
    ⟨true, { s with dataPos := s.dataPos + 2 }, [s.dataPos, s.dataPos + 1], []⟩
  else if cmdAt s = 0x4F ∨ cmdAt s = 0x50 then
    ⟨true, { s with dataPos := s.dataPos + 2 }, [s.dataPos], []⟩
  else if 0x51 ≤ cmdAt s ∧ cmdAt s ≤ 0x5F then
    ⟨true, { s with dataPos := s.dataPos + 3 }, [s.dataPos], []⟩
  else if cmdAt s = 0x61 then
    ⟨true,
      { s with
          waitSamples := byteAt s.rawData (s.dataPos + 1) + 256 * byteAt s.rawData (s.dataPos + 2) + 1
          dataPos := s.dataPos + 3 },
      [s.dataPos, s.dataPos + 1, s.dataPos + 2], []⟩
  else if cmdAt s = 0x62 then
    ⟨true, { s with waitSamples := 735, dataPos := s.dataPos + 1 }, [s.dataPos], []⟩
  else if cmdAt s = 0x63 then
    ⟨true, { s with waitSamples := 882, dataPos := s.dataPos + 1 }, [s.dataPos], []⟩
  else if cmdAt s = 0x66 then
    if s.loopOffset ≠ 0 ∧ s.loops ≠ 1 then
      ⟨true,
        { s with
            dataPos := s.loopOffset
            loops := if s.loops ≠ 0 then s.loops - 1 else s.loops
            jumps := s.jumps + 1 },
        [s.dataPos], []⟩
    else
      ⟨false, s, [s.dataPos], []⟩
  else if cmdAt s = 0x67 then
    ⟨true, { s with dataPos := s.dataPos + 7 + blockLenAt s.rawData s.dataPos },
      [s.dataPos, s.dataPos + 2, s.dataPos + 3, s.dataPos + 4, s.dataPos + 5, s.dataPos + 6],
      if s.hasNesChip then [ChipAccess.nesBlock (s.dataPos + 7) (blockLenAt s.rawData s.dataPos)] else []⟩
  else if cmdAt s = 0x68 then
    ⟨true, s, [s.dataPos], []⟩
  else if cmdAt s = 0xA0 then
    ⟨true, { s with dataPos := s.dataPos + 3 }, [s.dataPos, s.dataPos + 1, s.dataPos + 2],
      [ChipAccess.psgWrite (byteAt s.rawData (s.dataPos + 1)) (byteAt s.rawData (s.dataPos + 2))]⟩
  else if cmdAt s = 0xB4 then
    ⟨true, { s with dataPos := s.dataPos + 3 }, [s.dataPos, s.dataPos + 1, s.dataPos + 2],
      [ChipAccess.nesWrite (byteAt s.rawData (s.dataPos + 1)) (byteAt s.rawData (s.dataPos + 2))]⟩
  else if (0xB0 ≤ cmdAt s ∧ cmdAt s ≤ 0xB3) ∨ (0xB5 ≤ cmdAt s ∧ cmdAt s ≤ 0xBF) then
    ⟨true, { s with dataPos := s.dataPos + 3 }, [s.dataPos], []⟩
  else if cmdAt s = 0x30 ∨ cmdAt s = 0x3F then
    ⟨true, { s with dataPos := s.dataPos + 2 }, [s.dataPos], []⟩
  else if (0xC0 ≤ cmdAt s ∧ cmdAt s ≤ 0xC8) ∨ (0xD0 ≤ cmdAt s ∧ cmdAt s ≤ 0xD6) then
    ⟨true, { s with dataPos := s.dataPos + 4 }, [s.dataPos], []⟩
  else if cmdAt s = 0xE0 ∨ cmdAt s = 0xE1 then
    ⟨true, { s with dataPos := s.dataPos + 5 }, [s.dataPos], []⟩
  else if 0x70 ≤ cmdAt s ∧ cmdAt s ≤ 0x7F then
    ⟨true, { s with waitSamples := cmdAt s % 16 + 1, dataPos := s.dataPos + 1 }, [s.dataPos], []⟩
  else if 0x80 ≤ cmdAt s ∧ cmdAt s ≤ 0x8F then
    ⟨true, { s with dataPos := s.dataPos + 1 }, [s.dataPos], []⟩
  else if 0x90 ≤ cmdAt s ∧ cmdAt s ≤ 0x95 then
    ⟨true, s, [s.dataPos], []⟩
  else if 0x32 ≤ cmdAt s ∧ cmdAt s ≤ 0x3E then
    ⟨true, { s with dataPos := s.dataPos + 2 }, [s.dataPos], []⟩
  else if 0x40 ≤ cmdAt s ∧ cmdAt s ≤ 0x4E then
    ⟨true, { s with dataPos := s.dataPos + 3 }, [s.dataPos], []⟩
  else if 0xA1 ≤ cmdAt s ∧ cmdAt s ≤ 0xAF then
    ⟨true, { s with dataPos := s.dataPos + 3 }, [s.dataPos], []⟩
  else if (0xC9 ≤ cmdAt s ∧ cmdAt s ≤ 0xCF) ∨ (0xD7 ≤ cmdAt s ∧ cmdAt s ≤ 0xDF) then
    ⟨true, { s with dataPos := s.dataPos + 4 }, [s.dataPos], []⟩
  else if 0xE2 ≤ cmdAt s then
    ⟨true, { s with dataPos := s.dataPos + 5 }, [s.dataPos], []⟩
  else
    ⟨false, s, [s.dataPos], []⟩

/-- Modelled from the spec: `sizeof(VgmHeader)` — the header struct lives in
`vgm_file.h`, which is not part of the sources; spec §3 lists packed
little-endian fields through `ay8910_clock` at offset 0x7C, giving a 0x80
byte struct. -/
def vgmHeaderSize : Nat := 128

/-- Default duration cap, from the constructor's
`setMaxDuration( 3 * 60 * 1000 )`: `ms * VGM_SAMPLE_RATE / 1000` samples. -/
def defaultDuration : Nat := 3 * 60 * 1000 * 44100 / 1000

/-- `VgmFile::openVgm` (vgm_file.cpp lines 71-143), returning the session
state on success.  Header fields are read at the spec §3 offsets (the struct
itself is in the missing `vgm_file.h`): ident 0x00, eofOffset 0x04,
version 0x08, loopOffset 0x1C, vgmDataOffset 0x34, nesApuClock 0x78,
ay8910Clock 0x7C. -/
def openVgm (d : List Nat) : Option VgmState :=
  if d.length < vgmHeaderSize then none
  else if readU32 d 0 ≠ 0x206D6756 then none
  else if readU32 d 4 ≠ d.length - 4 then none
  else
    some
      { rawData := d
        size := d.length
        dataPos :=
          if 0x150 ≤ readU32 d 8 ∧ readU32 d 0x34 ≠ 0 then readU32 d 0x34 + 0x34 else 0x40
        waitSamples := 0
        samplesPlayed := 0
        duration := defaultDuration
        loopOffset := if readU32 d 0x1C ≠ 0 then 0x1C + readU32 d 0x1C else 0
        loops := if readU32 d 0x1C ≠ 0 then 2 else 1
        writeCounter := 0
        writeScaler := 44100
        sampleSum := 0
        sampleSumValid := false
        hasMsxChip := readU32 d 0x7C ≠ 0
        hasNesChip := readU32 d 0x7C = 0 ∧ readU32 d 0x78 ≠ 0
        isNsf := false
        ntscPlaySpeed := 0
        playCalls := 0
        jumps := 0 }

/-- Size of the NSF header: `VgmFile::setTrack` maps the ROM image from
`m_dataPtr + 0x80` with length `m_size - 0x80` (line 406), so the header
occupies 0x80 bytes. -/
def nsfHeaderSize : Nat := 128

/-- The boolean outcome of `VgmFile::openNsf` (lines 145-172): size and
magic ("NESM", 0x4D53454E) checks from the source; the subsequent
`setTrack(0)` succeeds iff the embedded 6502 `callSubroutine` on the init
routine does not fail, which is outside the core (spec §4.3) and therefore
abstracted by the oracle `initOk`. -/
def openNsfOk (d : List Nat) (initOk : Bool) : Bool :=
  if d.length < nsfHeaderSize then false
  else if readU32 d 0 ≠ 0x4D53454E then false
  else initOk

/-- `VgmFile::open` (lines 63-69): try VGM, then NSF. -/
def openFile (d : List Nat) (initOk : Bool) : Bool :=
  (openVgm d).isSome || openNsfOk d initOk

/-- One lane of the peak-preserving merge of `VgmFile::interpolateSample`
(lines 459-468): the 16-bit lane `dst` of the accumulator is replaced by the
incoming lane `src` when `(src >= 8192 && src > dst) || (src < 8192 && src < dst)`. -/
def mergeLane (src dst : Nat) : Nat :=
  if (8192 ≤ src ∧ dst < src) ∨ (src < 8192 ∧ src < dst) then src else dst

/-- `VgmFile::interpolateSample` (lines 446-469) acting on the pair
`(m_sampleSum, m_sampleSumValid)`, with `next` the packed stereo sample the
chip returned (low 16 bits left lane, high 16 bits right lane, as the
little-endian `StereoChannels` overlay reads them).  When the accumulator is
not valid the source first assigns `m_sampleSum = nextSample` and then still
evaluates the per-lane conditions against the freshly assigned value. -/
def interpolateSample (next sum : Nat) (valid : Bool) : Nat × Bool :=
  let sum1 := if valid then sum else next
  let lo := mergeLane (next % 65536) (sum1 % 65536)
  let hi := mergeLane (next / 65536 % 65536) (sum1 / 65536 % 65536)
  (lo + 65536 * hi, true)

/-- The `nextSample` value of `interpolateSample` (lines 448-450): 0 when no
chip exists, otherwise the `uint32_t` sample pulled from the owned chip.
The chips are stateful emulator objects outside this translation unit, so
the stream of samples they produce is abstracted by `oracle`, indexed by the
virtual tick `samplesPlayed` (each pull is immediately followed by one
`m_samplesPlayed++`). -/
def chipSampleValue (oracle : Nat → Nat) (s : VgmState) : Nat :=
  if s.hasMsxChip || s.hasNesChip then oracle s.samplesPlayed % 4294967296 else 0

/-- One iteration of the sample loop shared by `decodeVgmPcm` (lines 500-507)
and `decodeNfsPcm` (lines 550-557): `interpolateSample()` followed by
`m_writeCounter += m_writeScaler; m_samplesPlayed++; m_waitSamples--`. -/
def sampleTick (oracle : Nat → Nat) (s : VgmState) : VgmState :=
  let next := chipSampleValue oracle s
  let r := interpolateSample next s.sampleSum s.sampleSumValid
  { s with
      sampleSum := r.1
      sampleSumValid := r.2
      writeCounter := s.writeCounter + s.writeScaler
      samplesPlayed := s.samplesPlayed + 1
      waitSamples := s.waitSamples - 1 }

/-- The loop body of `VgmFile::decodeVgmPcm` (lines 477-519), flattened into
one step relation over `(state, decoded)` driven by `fuel`; `none` means the
fuel ran out before the function returned.  At each step: if fewer than 4
bytes of buffer space remain, return `decoded` (outer `while` exit); else if
no wait is pending, check the duration cap and fetch the next command,
returning `decoded` when `nextCommand()` is false; else run one sample-loop
iteration, emitting one 4-byte frame when `m_writeCounter` crosses
`VGM_SAMPLE_RATE = 44100`. -/
def decodeVgmLoop (oracle : Nat → Nat) : Nat → VgmState → Nat → Nat → Option (Nat × VgmState)
  | 0, _, _, _ => none
  | fuel + 1, s, decoded, maxSize =>
    if decoded + 4 ≤ maxSize then
      if s.waitSamples = 0 then
        if s.duration ≠ 0 ∧ s.duration ≤ s.samplesPlayed then some (decoded, s)
        else if (nextCommand s).ok then
          decodeVgmLoop oracle fuel (nextCommand s).st decoded maxSize
        else some (decoded, (nextCommand s).st)
      else
        if 44100 ≤ (sampleTick oracle s).writeCounter then
          decodeVgmLoop oracle fuel
            { sampleTick oracle s with
                writeCounter := (sampleTick oracle s).writeCounter - 44100
                sampleSumValid := false }
            (decoded + 4) maxSize
        else decodeVgmLoop oracle fuel (sampleTick oracle s) decoded maxSize
    else some (decoded, s)

/-- The loop body of `VgmFile::decodeNfsPcm` (lines 521-569), same shape as
`decodeVgmLoop` but the command phase calls
`m_nesChip->callSubroutine( m_nsfHeader->playAddress, 20000 )` — whose
result comes from the CPU oracle `playRes`, indexed by the ghost call
counter `playCalls` — and on success sets
`m_waitSamples = (44100 * ntscPlaySpeed) / 1000000`; a negative or zero
result breaks out and returns the bytes decoded so far. -/
def decodeNfsLoop (oracle : Nat → Nat) (playRes : Nat → Int) :
    Nat → VgmState → Nat → Nat → Option (Nat × VgmState)
  | 0, _, _, _ => none
  | fuel + 1, s, decoded, maxSize =>
    if decoded + 4 ≤ maxSize then
      if s.waitSamples = 0 then
        if s.duration ≠ 0 ∧ s.duration ≤ s.samplesPlayed then some (decoded, s)
        else if playRes s.playCalls < 0 then some (decoded, s)
        else if playRes s.playCalls = 0 then some (decoded, s)
        else
          decodeNfsLoop oracle playRes fuel
            { s with
                waitSamples := 44100 * s.ntscPlaySpeed / 1000000
                playCalls := s.playCalls + 1 }
            decoded maxSize
      else
        if 44100 ≤ (sampleTick oracle s).writeCounter then
          decodeNfsLoop oracle playRes fuel
            { sampleTick oracle s with
                writeCounter := (sampleTick oracle s).writeCounter - 44100
                sampleSumValid := false }
            (decoded + 4) maxSize
        else decodeNfsLoop oracle playRes fuel (sampleTick oracle s) decoded maxSize
    else some (decoded, s)

/-- `VgmFile::decodePcm` (lines 471-475): dispatch on whether an NSF header
was bound, returning the byte count (`none` when the fuel ran out). -/
def decodePcm (oracle : Nat → Nat) (playRes : Nat → Int) (fuel : Nat) (s : VgmState)
    (maxSize : Nat) : Option Nat :=
  if s.isNsf then (decodeNfsLoop oracle playRes fuel s 0 maxSize).map (fun r => r.1)
  else (decodeVgmLoop oracle fuel s 0 maxSize).map (fun r => r.1)

/-- The command bytes that fall through every `case` and every range test of
the `default` branch of `nextCommand`, reaching the `Unknown command` error
return (lines 377-379). -/
def isUnknownCmd (cmd : Nat) : Prop :=
  cmd ≤ 0x2F ∨ cmd = 0x60 ∨ cmd = 0x64 ∨ cmd = 0x65 ∨ (0x69 ≤ cmd ∧ cmd ≤ 0x6F) ∨
    (0x96 ≤ cmd ∧ cmd ≤ 0x9F)

instance (cmd : Nat) : Decidable (isUnknownCmd cmd) := by
  unfold isUnknownCmd; infer_instance

/-- The cursor advance of each recognised command byte, transcribed from the
operand sizes documented in the `nextCommand` dispatch tables (`blockLen` is
the 32-bit length field of a 0x67 data block).  Commands 0x68 and 0x90-0x95
advance by 0: their handlers `break` without touching `m_dataPtr`.  0x66 is
excluded (it rewinds to the loop offset or ends the stream). -/
def cmdAdvance (cmd blockLen : Nat) : Nat :=
  if cmd = 0x30 ∨ cmd = 0x31 ∨ (0x32 ≤ cmd ∧ cmd ≤ 0x3E) ∨ cmd = 0x3F ∨ cmd = 0x4F ∨
      cmd = 0x50 then 2
  else if (0x40 ≤ cmd ∧ cmd ≤ 0x4E) ∨ (0x51 ≤ cmd ∧ cmd ≤ 0x5F) ∨ cmd = 0x61 ∨
      (0xA0 ≤ cmd ∧ cmd ≤ 0xBF) then 3
  else if cmd = 0x62 ∨ cmd = 0x63 ∨ (0x70 ≤ cmd ∧ cmd ≤ 0x8F) then 1
  else if cmd = 0x67 then 7 + blockLen
  else if cmd = 0x68 ∨ (0x90 ≤ cmd ∧ cmd ≤ 0x95) then 0
  else if (0xC0 ≤ cmd ∧ cmd ≤ 0xDF) then 4
  else if 0xE0 ≤ cmd then 5
  else 0

/-- Iterated `nextCommand`: the state after `n` successful command steps,
`none` as soon as a step returned false. -/
def iterCmd (s : VgmState) : Nat → Option VgmState
  | 0 => some s
  | n + 1 =>
    match iterCmd s n with
    | none => none
    | some t => if (nextCommand t).ok then some (nextCommand t).st else none

/-- The NSF header fields that `VgmFile` reads (the packed struct is in the
missing `vgm_file.h`; field names follow the member accesses in
vgm_file.cpp and spec §3). -/
structure NsfHeader where
  songIndex : Nat
  loadAddress : Nat
  initAddress : Nat
  playAddress : Nat
  bankSwitch : List Nat
  ntscPlaySpeed : Nat
deriving DecidableEq

/-- One call `VgmFile::setTrack` makes into the NES APU / CPU object. -/
inductive NesOp where
  | reset : NesOp
  | dataBlock (addr len : Nat) : NesOp
  | regWrite (addr val : Nat) : NesOp
  | setData (addr val : Nat) : NesOp
  | callSub (addr : Nat) : NesOp
deriving DecidableEq

/-- The sequence of chip/CPU calls issued by `VgmFile::setTrack`
(lines 399-434) for an NSF file of `size` bytes: reset, ROM load, the
conditional bank-switch writes, the two zeroing loops
(`for (i = 0; i < 0x07FF; ...)` and `for (i = 0x4000; i < 0x4013; ...)`),
the `$4015`/`$4017` writes, and finally `callSubroutine(initAddress)`.
The assignments to `cpu.x`, `cpu.a`, `cpu.sp` between the `$4017` write and
the init call touch CPU registers, not memory, and are not listed. -/
def setTrackOps (h : NsfHeader) (size : Nat) : List NesOp :=
  [NesOp.reset, NesOp.dataBlock h.loadAddress (size - 0x80)] ++
    (if h.bankSwitch.any (fun b => b ≠ 0) then
      (List.range 8).map (fun i => NesOp.regWrite (0x5FF8 + i) (h.bankSwitch.getD i 0))
    else []) ++
    (List.range 0x07FF).map (fun i => NesOp.setData i 0) ++
    (List.range 0x13).map (fun i => NesOp.setData (0x4000 + i) 0) ++
    [NesOp.setData 0x4015 0x00, NesOp.setData 0x4015 0x0F, NesOp.setData 0x4017 0x40,
      NesOp.callSub h.initAddress]

/-- A concrete NSF header: one song, load/init/play at 0x8000, no bank
switching, NTSC play speed 16666 us. -/
def nsfH6 : NsfHeader :=
  { songIndex := 1, loadAddress := 0x8000, initAddress := 0x8000, playAddress := 0x8000,
    bankSwitch := [0, 0, 0, 0, 0, 0, 0, 0], ntscPlaySpeed := 16666 }

/-- A 128-byte VGM image: magic "Vgm ", eofOffset 124 = size - 4,
version 1.01 (data starts at the default 0x40), no loop, no chip clocks,
and the single command byte 0x68 (PCM RAM write) at offset 0x40. -/
def file2 : List Nat :=
  [0x56, 0x67, 0x6D, 0x20] ++ [124, 0, 0, 0] ++ [0x01, 0x01, 0, 0] ++
    List.replicate 52 0 ++ [0x68] ++ List.replicate 63 0

/-- The session state `openVgm file2` produces. -/
def st2 : VgmState :=
  { rawData := file2, size := 128, dataPos := 64, waitSamples := 0, samplesPlayed := 0,
    duration := 7938000, loopOffset := 0, loops := 1, writeCounter := 0, writeScaler := 44100,
    sampleSum := 0, sampleSumValid := false, hasMsxChip := false, hasNesChip := false,
    isNsf := false, ntscPlaySpeed := 0, playCalls := 0, jumps := 0 }

/-- Everything one `nextCommand` step guarantees, branch by branch: the
coverage disjunction and the read-position bound (claim C1), preservation of
the image, loop bookkeeping and chip/ghost fields, the exact 0x66 loop and
end-of-stream behaviour (claim C4), the clean failure on unknown commands
(claim C8), and the chip accesses each command performs (claim C9). -/
def StepProp (s : VgmState) (r : StepResult) : Prop :=
  (r.ok = true ∧
      (r.st.dataPos = s.dataPos + cmdAdvance (cmdAt s) (blockLenAt s.rawData s.dataPos) ∨
        (cmdAt s = 0x66 ∧ r.st.dataPos = s.loopOffset)) ∨
    (r.ok = false ∧ r.st = s ∧ (cmdAt s = 0x66 ∨ isUnknownCmd (cmdAt s)))) ∧
  (∀ q ∈ r.reads, s.dataPos ≤ q ∧ q ≤ s.dataPos + 6) ∧
  (r.st.rawData = s.rawData ∧ r.st.size = s.size ∧ r.st.loopOffset = s.loopOffset ∧
    r.st.duration = s.duration ∧ r.st.writeScaler = s.writeScaler ∧
    r.st.hasMsxChip = s.hasMsxChip ∧ r.st.hasNesChip = s.hasNesChip ∧ r.st.isNsf = s.isNsf) ∧
  (cmdAt s ≠ 0x66 → r.st.loops = s.loops ∧ r.st.jumps = s.jumps) ∧
  (cmdAt s = 0x66 →
    (s.loopOffset ≠ 0 ∧ s.loops ≠ 1 →
      r.ok = true ∧ r.st.dataPos = s.loopOffset ∧
        r.st.loops = (if s.loops ≠ 0 then s.loops - 1 else s.loops) ∧
        r.st.jumps = s.jumps + 1 ∧ r.st.waitSamples = s.waitSamples) ∧
    (¬(s.loopOffset ≠ 0 ∧ s.loops ≠ 1) → r = ⟨false, s, [s.dataPos], []⟩)) ∧
  (isUnknownCmd (cmdAt s) → r = ⟨false, s, [s.dataPos], []⟩) ∧
  (cmdAt s = 0xA0 →
    r.acc = [ChipAccess.psgWrite (byteAt s.rawData (s.dataPos + 1)) (byteAt s.rawData (s.dataPos + 2))]) ∧
  (cmdAt s = 0xB4 →
    r.acc = [ChipAccess.nesWrite (byteAt s.rawData (s.dataPos + 1)) (byteAt s.rawData (s.dataPos + 2))]) ∧
  (cmdAt s = 0x67 →
    r.acc =
      if s.hasNesChip then [ChipAccess.nesBlock (s.dataPos + 7) (blockLenAt s.rawData s.dataPos)]
      else []) ∧
  (cmdAt s ≠ 0xA0 → cmdAt s ≠ 0xB4 → cmdAt s ≠ 0x67 → r.acc = [])

/-- A 128-byte VGM image accepted by `openVgm`: magic "Vgm ", eofOffset 124,
version 1.50 with `vgm_data_offset = 0x4B`, so the data cursor starts at
0x4B + 0x34 = 127, the last byte of the image, which holds the wait command
0x61. -/
def file1 : List Nat :=
  [0x56, 0x67, 0x6D, 0x20] ++ [124, 0, 0, 0] ++ [0x50, 0x01, 0, 0] ++
    List.replicate 40 0 ++ [0x4B, 0, 0, 0] ++ List.replicate 71 0 ++ [0x61]

/-- A 128-byte VGM image with a loop: magic, eofOffset 124, version 1.01,
header loop_offset 0x25 (so the rewind target is 0x1C + 0x25 = 0x41), and
the stream `0x62 0x62 0x66` at 0x40. -/
def file4 : List Nat :=
  [0x56, 0x67, 0x6D, 0x20] ++ [124, 0, 0, 0] ++ [0x01, 0x01, 0, 0] ++
    List.replicate 16 0 ++ [0x25, 0, 0, 0] ++ List.replicate 32 0 ++
    [0x62, 0x62, 0x66] ++ List.replicate 61 0

/-- The session state `openVgm file4` produces. -/
def st4 : VgmState :=
  { rawData := file4, size := 128, dataPos := 64, waitSamples := 0, samplesPlayed := 0,
    duration := 7938000, loopOffset := 65, loops := 2, writeCounter := 0, writeScaler := 44100,
    sampleSum := 0, sampleSumValid := false, hasMsxChip := false, hasNesChip := false,
    isNsf := false, ntscPlaySpeed := 0, playCalls := 0, jumps := 0 }

/-- A tiny session state whose cursor sits on the unknown command byte 0x05. -/
def s8 : VgmState :=
  { rawData := [0x05], size := 1, dataPos := 0, waitSamples := 0, samplesPlayed := 0,
    duration := 7938000, loopOffset := 0, loops := 1, writeCounter := 0, writeScaler := 44100,
    sampleSum := 0, sampleSumValid := false, hasMsxChip := false, hasNesChip := false,
    isNsf := false, ntscPlaySpeed := 0, playCalls := 0, jumps := 0 }

/-- A session state on a 0xA0 command with no PSG instantiated. -/
def s9 : VgmState :=
  { rawData := [0xA0, 7, 42], size := 3, dataPos := 0, waitSamples := 0, samplesPlayed := 0,
    duration := 7938000, loopOffset := 0, loops := 1, writeCounter := 0, writeScaler := 44100,
    sampleSum := 0, sampleSumValid := false, hasMsxChip := false, hasNesChip := false,
    isNsf := false, ntscPlaySpeed := 0, playCalls := 0, jumps := 0 }

/-- A 128-byte image with valid magic and eofOffset, version 1.50, and the
absurd `vgm_data_offset = 0x0FFFFFFF`. -/
def file3 : List Nat :=
  [0x56, 0x67, 0x6D, 0x20] ++ [124, 0, 0, 0] ++ [0x50, 0x01, 0, 0] ++
    List.replicate 40 0 ++ [0xFF, 0xFF, 0xFF, 0x0F] ++ List.replicate 72 0

/-- A 128-byte VGM image for scenario S1: no chip clocks, stream
`0x62 0x66` (wait 735 then end) at 0x40. -/
def file7 : List Nat :=
  [0x56, 0x67, 0x6D, 0x20] ++ [124, 0, 0, 0] ++ [0x01, 0x01, 0, 0] ++
    List.replicate 52 0 ++ [0x62, 0x66] ++ List.replicate 62 0

/-- The session state `openVgm file7` produces. -/
def st7 : VgmState :=
  { rawData := file7, size := 128, dataPos := 64, waitSamples := 0, samplesPlayed := 0,
    duration := 7938000, loopOffset := 0, loops := 1, writeCounter := 0, writeScaler := 44100,
    sampleSum := 0, sampleSumValid := false, hasMsxChip := false, hasNesChip := false,
    isNsf := false, ntscPlaySpeed := 0, playCalls := 0, jumps := 0 }

/-- C5: in `interpolateSample`, with a valid accumulator the merge acts
independently on the left lane (low 16 bits) and right lane (high 16 bits):
a lane `acc` is replaced by the incoming chip lane `next` exactly when
`(next ≥ 8192 ∧ next > acc) ∨ (next < 8192 ∧ next < acc)`; with no valid
accumulator, the accumulator becomes the new sample and is marked valid. -/
theorem interpolateSample_peak_merge (nl nr al ar : Nat)
    (hnl : nl < 65536) (hnr : nr < 65536) (hal : al < 65536) (har : ar < 65536) :
    interpolateSample (nl + 65536 * nr) (al + 65536 * ar) true =
      ((if (8192 ≤ nl ∧ al < nl) ∨ (nl < 8192 ∧ nl < al) then nl else al) +
        65536 * (if (8192 ≤ nr ∧ ar < nr) ∨ (nr < 8192 ∧ nr < ar) then nr else ar), true) ∧
    interpolateSample (nl + 65536 * nr) (al + 65536 * ar) false =
      (nl + 65536 * nr, true) := by
  have h1 : (nl + 65536 * nr) % 65536 = nl := by omega
  have h2 : (nl + 65536 * nr) / 65536 % 65536 = nr := by omega
  have h3 : (al + 65536 * ar) % 65536 = al := by omega
  have h4 : (al + 65536 * ar) / 65536 % 65536 = ar := by omega
  constructor
  · unfold interpolateSample mergeLane
    simp only [if_true, h1, h2, h3, h4]
  · unfold interpolateSample mergeLane
    simp only [Bool.false_eq_true, if_false, h1, h2]
    rw [if_neg (by omega), if_neg (by omega)]

/-- Witness for C5 at concrete lanes: left 10000 vs 9000 (peak kept: 10000),
right 100 vs 200 (trough kept: 100). -/
theorem interpolateSample_peak_merge_witness :
    interpolateSample (10000 + 65536 * 100) (9000 + 65536 * 200) true =
      ((if (8192 ≤ 10000 ∧ 9000 < 10000) ∨ (10000 < 8192 ∧ 10000 < 9000) then 10000 else 9000) +
        65536 * (if (8192 ≤ 100 ∧ 200 < 100) ∨ (100 < 8192 ∧ 100 < 200) then 100 else 200),
        true) ∧
    interpolateSample (10000 + 65536 * 100) (9000 + 65536 * 200) false =
      (10000 + 65536 * 100, true) :=
  interpolateSample_peak_merge 10000 100 9000 200 (by decide) (by decide) (by decide) (by decide)

/-- C6 (code defect): the reset loops of `setTrack` stop one short of the
claimed inclusive bounds.  For the concrete NSF `nsfH6` (256-byte image) the
call sequence zeroes `$0000-$07FE` and `$4000-$4012` only — `$07FF` and
`$4013` are never written (`for` conditions `i < 0x07FF`, `i < 0x4013`) —
then writes `$4015 = 0x00`, `$4015 = 0x0F`, `$4017 = 0x40` and calls init,
as shown by the full trace equality. -/
theorem setTrack_reset_writes :
    NesOp.setData 0x7FE 0 ∈ setTrackOps nsfH6 256 ∧
    NesOp.setData 0x7FF 0 ∉ setTrackOps nsfH6 256 ∧
    NesOp.setData 0x4012 0 ∈ setTrackOps nsfH6 256 ∧
    NesOp.setData 0x4013 0 ∉ setTrackOps nsfH6 256 ∧
    setTrackOps nsfH6 256 =
      [NesOp.reset, NesOp.dataBlock 0x8000 128] ++
        (List.range 0x7FF).map (fun i => NesOp.setData i 0) ++
        (List.range 0x13).map (fun i => NesOp.setData (0x4000 + i) 0) ++
        [NesOp.setData 0x4015 0x00, NesOp.setData 0x4015 0x0F, NesOp.setData 0x4017 0x40,
          NesOp.callSub 0x8000] := by
  refine ⟨by decide, by decide, by decide, by decide, ?_⟩
  rfl

/-- C2 (code defect): `file2` opens fine, but its first command is 0x68,
whose handler neither advances the cursor nor sets a wait, so `nextCommand`
is the identity on the state and `decodePcm` never returns: the fuel-indexed
loop yields `none` — fuel exhausted, no return — for every fuel. -/
theorem decodeVgmPcm_hangs_on_0x68 :
    openVgm file2 = some st2 ∧
    byteAt file2 st2.dataPos = 0x68 ∧
    nextCommand st2 = ⟨true, st2, [64], []⟩ ∧
    ∀ fuel, decodePcm (fun _ => 0) (fun _ => 0) fuel st2 8 = none := by
  have hnc : nextCommand st2 = ⟨true, st2, [64], []⟩ := by decide
  have hloop : ∀ fuel, decodeVgmLoop (fun _ => 0) fuel st2 0 8 = none := by
    intro fuel
    induction fuel with
    | zero => rfl
    | succ n ih =>
        unfold decodeVgmLoop
        simp only [hnc]
        norm_num [st2]
        exact ih
  refine ⟨by decide, by decide, hnc, ?_⟩
  intro fuel
  unfold decodePcm
  rw [if_neg (by decide), hloop fuel]
  rfl

theorem cmdAdvance_two (cmd bl : Nat) (h : cmd = 0x30 ∨ cmd = 0x31 ∨ (0x32 ≤ cmd ∧ cmd ≤ 0x3E) ∨ cmd = 0x3F ∨ cmd = 0x4F ∨ cmd = 0x50) :
    cmdAdvance cmd bl = 2 := by
  unfold cmdAdvance
  rw [if_pos h]

theorem cmdAdvance_three (cmd bl : Nat) (h : (0x40 ≤ cmd ∧ cmd ≤ 0x4E) ∨ (0x51 ≤ cmd ∧ cmd ≤ 0x5F) ∨ cmd = 0x61 ∨ (0xA0 ≤ cmd ∧ cmd ≤ 0xBF)) :
    cmdAdvance cmd bl = 3 := by
  have n0 : ¬(cmd = 0x30 ∨ cmd = 0x31 ∨ (0x32 ≤ cmd ∧ cmd ≤ 0x3E) ∨ cmd = 0x3F ∨ cmd = 0x4F ∨ cmd = 0x50) := by omega
  unfold cmdAdvance
  rw [if_neg n0, if_pos h]

theorem cmdAdvance_one (cmd bl : Nat) (h : cmd = 0x62 ∨ cmd = 0x63 ∨ (0x70 ≤ cmd ∧ cmd ≤ 0x8F)) :
    cmdAdvance cmd bl = 1 := by
  have n0 : ¬(cmd = 0x30 ∨ cmd = 0x31 ∨ (0x32 ≤ cmd ∧ cmd ≤ 0x3E) ∨ cmd = 0x3F ∨ cmd = 0x4F ∨ cmd = 0x50) := by omega
  have n1 : ¬((0x40 ≤ cmd ∧ cmd ≤ 0x4E) ∨ (0x51 ≤ cmd ∧ cmd ≤ 0x5F) ∨ cmd = 0x61 ∨ (0xA0 ≤ cmd ∧ cmd ≤ 0xBF)) := by omega
  unfold cmdAdvance
  rw [if_neg n0, if_neg n1, if_pos h]

theorem cmdAdvance_block (cmd bl : Nat) (h : cmd = 0x67) :
    cmdAdvance cmd bl = 7 + bl := by
  have n0 : ¬(cmd = 0x30 ∨ cmd = 0x31 ∨ (0x32 ≤ cmd ∧ cmd ≤ 0x3E) ∨ cmd = 0x3F ∨ cmd = 0x4F ∨ cmd = 0x50) := by omega
  have n1 : ¬((0x40 ≤ cmd ∧ cmd ≤ 0x4E) ∨ (0x51 ≤ cmd ∧ cmd ≤ 0x5F) ∨ cmd = 0x61 ∨ (0xA0 ≤ cmd ∧ cmd ≤ 0xBF)) := by omega
  have n2 : ¬(cmd = 0x62 ∨ cmd = 0x63 ∨ (0x70 ≤ cmd ∧ cmd ≤ 0x8F)) := by omega
  unfold cmdAdvance
  rw [if_neg n0, if_neg n1, if_neg n2, if_pos h]

theorem cmdAdvance_zero (cmd bl : Nat) (h : cmd = 0x68 ∨ (0x90 ≤ cmd ∧ cmd ≤ 0x95)) :
    cmdAdvance cmd bl = 0 := by
  have n0 : ¬(cmd = 0x30 ∨ cmd = 0x31 ∨ (0x32 ≤ cmd ∧ cmd ≤ 0x3E) ∨ cmd = 0x3F ∨ cmd = 0x4F ∨ cmd = 0x50) := by omega
  have n1 : ¬((0x40 ≤ cmd ∧ cmd ≤ 0x4E) ∨ (0x51 ≤ cmd ∧ cmd ≤ 0x5F) ∨ cmd = 0x61 ∨ (0xA0 ≤ cmd ∧ cmd ≤ 0xBF)) := by omega
  have n2 : ¬(cmd = 0x62 ∨ cmd = 0x63 ∨ (0x70 ≤ cmd ∧ cmd ≤ 0x8F)) := by omega
  have n3 : ¬(cmd = 0x67) := by omega
  unfold cmdAdvance
  rw [if_neg n0, if_neg n1, if_neg n2, if_neg n3, if_pos h]

theorem cmdAdvance_four (cmd bl : Nat) (h : 0xC0 ≤ cmd ∧ cmd ≤ 0xDF) :
    cmdAdvance cmd bl = 4 := by
  have n0 : ¬(cmd = 0x30 ∨ cmd = 0x31 ∨ (0x32 ≤ cmd ∧ cmd ≤ 0x3E) ∨ cmd = 0x3F ∨ cmd = 0x4F ∨ cmd = 0x50) := by omega
  have n1 : ¬((0x40 ≤ cmd ∧ cmd ≤ 0x4E) ∨ (0x51 ≤ cmd ∧ cmd ≤ 0x5F) ∨ cmd = 0x61 ∨ (0xA0 ≤ cmd ∧ cmd ≤ 0xBF)) := by omega
  have n2 : ¬(cmd = 0x62 ∨ cmd = 0x63 ∨ (0x70 ≤ cmd ∧ cmd ≤ 0x8F)) := by omega
  have n3 : ¬(cmd = 0x67) := by omega
  have n4 : ¬(cmd = 0x68 ∨ (0x90 ≤ cmd ∧ cmd ≤ 0x95)) := by omega
  unfold cmdAdvance
  rw [if_neg n0, if_neg n1, if_neg n2, if_neg n3, if_neg n4, if_pos h]

theorem cmdAdvance_five (cmd bl : Nat) (h : 0xE0 ≤ cmd) :
    cmdAdvance cmd bl = 5 := by
  have n0 : ¬(cmd = 0x30 ∨ cmd = 0x31 ∨ (0x32 ≤ cmd ∧ cmd ≤ 0x3E) ∨ cmd = 0x3F ∨ cmd = 0x4F ∨ cmd = 0x50) := by omega
  have n1 : ¬((0x40 ≤ cmd ∧ cmd ≤ 0x4E) ∨ (0x51 ≤ cmd ∧ cmd ≤ 0x5F) ∨ cmd = 0x61 ∨ (0xA0 ≤ cmd ∧ cmd ≤ 0xBF)) := by omega
  have n2 : ¬(cmd = 0x62 ∨ cmd = 0x63 ∨ (0x70 ≤ cmd ∧ cmd ≤ 0x8F)) := by omega
  have n3 : ¬(cmd = 0x67) := by omega
  have n4 : ¬(cmd = 0x68 ∨ (0x90 ≤ cmd ∧ cmd ≤ 0x95)) := by omega
  have n5 : ¬(0xC0 ≤ cmd ∧ cmd ≤ 0xDF) := by omega
  unfold cmdAdvance
  rw [if_neg n0, if_neg n1, if_neg n2, if_neg n3, if_neg n4, if_neg n5, if_pos h]

/-- `StepProp` for every plainly advancing branch: the handler moves the
cursor forward by the table length `k`, possibly sets `waitSamples` to `w`,
reads only `rds`, and touches no chip. -/
theorem StepProp.mk_advance (s : VgmState) (k w : Nat) (rds : List Nat)
    (hk : cmdAdvance (cmdAt s) (blockLenAt s.rawData s.dataPos) = k)
    (hrds : ∀ q ∈ rds, s.dataPos ≤ q ∧ q ≤ s.dataPos + 6)
    (h66 : cmdAt s ≠ 0x66) (hunk : ¬ isUnknownCmd (cmdAt s))
    (hA0 : cmdAt s ≠ 0xA0) (hB4 : cmdAt s ≠ 0xB4) (h67 : cmdAt s ≠ 0x67) :
    StepProp s ⟨true, { s with waitSamples := w, dataPos := s.dataPos + k }, rds, []⟩ := by
  unfold StepProp
  refine ⟨Or.inl ⟨rfl, Or.inl (by rw [hk])⟩, hrds,
    ⟨rfl, rfl, rfl, rfl, rfl, rfl, rfl, rfl⟩,
    fun _ => ⟨rfl, rfl⟩,
    fun h => absurd h h66,
    fun h => absurd h hunk,
    fun h => absurd h hA0,
    fun h => absurd h hB4,
    fun h => absurd h h67,
    fun _ _ _ => rfl⟩

/-- `StepProp` for the 0xA0 branch: the AY-3-8910 write is performed with no
check that `m_msxChip` is non-null. -/
theorem StepProp.mk_psg (s : VgmState) (h : cmdAt s = 0xA0) :
    StepProp s ⟨true, { s with dataPos := s.dataPos + 3 },
      [s.dataPos, s.dataPos + 1, s.dataPos + 2],
      [ChipAccess.psgWrite (byteAt s.rawData (s.dataPos + 1)) (byteAt s.rawData (s.dataPos + 2))]⟩ := by
  have hadv : cmdAdvance (cmdAt s) (blockLenAt s.rawData s.dataPos) = 3 :=
    cmdAdvance_three _ _ (by omega)
  unfold StepProp
  refine ⟨Or.inl ⟨rfl, Or.inl (by rw [hadv])⟩, (by intro q hq; simp only [List.mem_cons, List.not_mem_nil, or_false] at hq; omega),
    ⟨rfl, rfl, rfl, rfl, rfl, rfl, rfl, rfl⟩,
    fun _ => ⟨rfl, rfl⟩,
    fun h66 => absurd h66 (by omega),
    fun hu => absurd hu (by unfold isUnknownCmd; omega),
    fun _ => rfl,
    fun hB4 => absurd hB4 (by omega),
    fun h67 => absurd h67 (by omega),
    fun hA0 _ _ => absurd h hA0⟩

/-- `StepProp` for the 0xB4 branch: the NES APU write is performed with no
check that `m_nesChip` is non-null. -/
theorem StepProp.mk_nes (s : VgmState) (h : cmdAt s = 0xB4) :
    StepProp s ⟨true, { s with dataPos := s.dataPos + 3 },
      [s.dataPos, s.dataPos + 1, s.dataPos + 2],
      [ChipAccess.nesWrite (byteAt s.rawData (s.dataPos + 1)) (byteAt s.rawData (s.dataPos + 2))]⟩ := by
  have hadv : cmdAdvance (cmdAt s) (blockLenAt s.rawData s.dataPos) = 3 :=
    cmdAdvance_three _ _ (by omega)
  unfold StepProp
  refine ⟨Or.inl ⟨rfl, Or.inl (by rw [hadv])⟩, (by intro q hq; simp only [List.mem_cons, List.not_mem_nil, or_false] at hq; omega),
    ⟨rfl, rfl, rfl, rfl, rfl, rfl, rfl, rfl⟩,
    fun _ => ⟨rfl, rfl⟩,
    fun h66 => absurd h66 (by omega),
    fun hu => absurd hu (by unfold isUnknownCmd; omega),
    fun hA0 => absurd hA0 (by omega),
    fun _ => rfl,
    fun h67 => absurd h67 (by omega),
    fun _ hB4 _ => absurd h hB4⟩

/-- `StepProp` for the 0x67 data-block branch: the block is handed to the
NES APU only when the chip exists, and the cursor skips header and payload. -/
theorem StepProp.mk_block (s : VgmState) (h : cmdAt s = 0x67) :
    StepProp s ⟨true, { s with dataPos := s.dataPos + 7 + blockLenAt s.rawData s.dataPos },
      [s.dataPos, s.dataPos + 2, s.dataPos + 3, s.dataPos + 4, s.dataPos + 5, s.dataPos + 6],
      if s.hasNesChip then [ChipAccess.nesBlock (s.dataPos + 7) (blockLenAt s.rawData s.dataPos)]
      else []⟩ := by
  have hadv : cmdAdvance (cmdAt s) (blockLenAt s.rawData s.dataPos) =
      7 + blockLenAt s.rawData s.dataPos := cmdAdvance_block _ _ h
  unfold StepProp
  refine ⟨Or.inl ⟨rfl, Or.inl (by
      show s.dataPos + 7 + blockLenAt s.rawData s.dataPos =
        s.dataPos + cmdAdvance (cmdAt s) (blockLenAt s.rawData s.dataPos)
      rw [hadv]; omega)⟩, (by intro q hq; simp only [List.mem_cons, List.not_mem_nil, or_false] at hq; omega),
    ⟨rfl, rfl, rfl, rfl, rfl, rfl, rfl, rfl⟩,
    fun _ => ⟨rfl, rfl⟩,
    fun h66 => absurd h66 (by omega),
    fun hu => absurd hu (by unfold isUnknownCmd; omega),
    fun hA0 => absurd hA0 (by omega),
    fun hB4 => absurd hB4 (by omega),
    fun _ => rfl,
    fun _ _ h67 => absurd h h67⟩

/-- `StepProp` for the 0x66 branch when a loop remains: rewind and count. -/
theorem StepProp.mk_66jump (s : VgmState) (h : cmdAt s = 0x66)
    (hc : s.loopOffset ≠ 0 ∧ s.loops ≠ 1) :
    StepProp s ⟨true,
      { s with
          dataPos := s.loopOffset
          loops := if s.loops ≠ 0 then s.loops - 1 else s.loops
          jumps := s.jumps + 1 },
      [s.dataPos], []⟩ := by
  unfold StepProp
  refine ⟨Or.inl ⟨rfl, Or.inr ⟨h, rfl⟩⟩, (by intro q hq; simp only [List.mem_cons, List.not_mem_nil, or_false] at hq; omega),
    ⟨rfl, rfl, rfl, rfl, rfl, rfl, rfl, rfl⟩,
    fun hne => absurd h hne,
    fun _ => ⟨fun _ => ⟨rfl, rfl, rfl, rfl, rfl⟩, fun hn => absurd hc hn⟩,
    fun hu => absurd hu (by unfold isUnknownCmd; omega),
    fun hA0 => absurd hA0 (by omega),
    fun hB4 => absurd hB4 (by omega),
    fun h67 => absurd h67 (by omega),
    fun _ _ _ => rfl⟩

/-- `StepProp` for the 0x66 branch with no loop left: end of stream. -/
theorem StepProp.mk_66stop (s : VgmState) (h : cmdAt s = 0x66)
    (hng : ¬(s.loopOffset ≠ 0 ∧ s.loops ≠ 1)) :
    StepProp s ⟨false, s, [s.dataPos], []⟩ := by
  unfold StepProp
  refine ⟨Or.inr ⟨rfl, rfl, Or.inl h⟩, (by intro q hq; simp only [List.mem_cons, List.not_mem_nil, or_false] at hq; omega),
    ⟨rfl, rfl, rfl, rfl, rfl, rfl, rfl, rfl⟩,
    fun _ => ⟨rfl, rfl⟩,
    fun _ => ⟨fun hc => absurd hc hng, fun _ => rfl⟩,
    fun hu => absurd hu (by unfold isUnknownCmd; omega),
    fun hA0 => absurd hA0 (by omega),
    fun hB4 => absurd hB4 (by omega),
    fun h67 => absurd h67 (by omega),
    fun _ _ _ => rfl⟩

/-- `StepProp` for the final branch: an unknown command fails cleanly. -/
theorem StepProp.mk_unknown (s : VgmState) (hu : isUnknownCmd (cmdAt s)) :
    StepProp s ⟨false, s, [s.dataPos], []⟩ := by
  have h66 : cmdAt s ≠ 0x66 := by unfold isUnknownCmd at hu; omega
  have hA : cmdAt s ≠ 0xA0 := by unfold isUnknownCmd at hu; omega
  have hB : cmdAt s ≠ 0xB4 := by unfold isUnknownCmd at hu; omega
  have h67 : cmdAt s ≠ 0x67 := by unfold isUnknownCmd at hu; omega
  unfold StepProp
  refine ⟨Or.inr ⟨rfl, rfl, Or.inr hu⟩, (by intro q hq; simp only [List.mem_cons, List.not_mem_nil, or_false] at hq; omega),
    ⟨rfl, rfl, rfl, rfl, rfl, rfl, rfl, rfl⟩,
    fun _ => ⟨rfl, rfl⟩,
    fun h => absurd h h66,
    fun _ => rfl,
    fun h => absurd h hA,
    fun h => absurd h hB,
    fun h => absurd h h67,
    fun _ _ _ => rfl⟩

/-- Master branch analysis: every `nextCommand` step satisfies `StepProp`. -/
theorem nextCommand_cases (s : VgmState) : StepProp s (nextCommand s) := by
  unfold nextCommand
  by_cases h1 : cmdAt s = 0x31
  · rw [if_pos h1]
    exact StepProp.mk_advance s 2 s.waitSamples [s.dataPos, s.dataPos + 1]
      (cmdAdvance_two _ _ (by omega)) (by intro q hq; simp only [List.mem_cons, List.not_mem_nil, or_false] at hq; omega)
      (by omega) (by unfold isUnknownCmd; omega) (by omega) (by omega) (by omega)
  rw [if_neg h1]
  by_cases h2 : cmdAt s = 0x4F ∨ cmdAt s = 0x50
  · rw [if_pos h2]
    exact StepProp.mk_advance s 2 s.waitSamples [s.dataPos]
      (cmdAdvance_two _ _ (by omega)) (by intro q hq; simp only [List.mem_cons, List.not_mem_nil, or_false] at hq; omega)
      (by omega) (by unfold isUnknownCmd; omega) (by omega) (by omega) (by omega)
  rw [if_neg h2]
  by_cases h3 : 0x51 ≤ cmdAt s ∧ cmdAt s ≤ 0x5F
  · rw [if_pos h3]
    exact StepProp.mk_advance s 3 s.waitSamples [s.dataPos]
      (cmdAdvance_three _ _ (by omega)) (by intro q hq; simp only [List.mem_cons, List.not_mem_nil, or_false] at hq; omega)
      (by omega) (by unfold isUnknownCmd; omega) (by omega) (by omega) (by omega)
  rw [if_neg h3]
  by_cases h4 : cmdAt s = 0x61
  · rw [if_pos h4]
    exact StepProp.mk_advance s 3 (byteAt s.rawData (s.dataPos + 1) + 256 * byteAt s.rawData (s.dataPos + 2) + 1) [s.dataPos, s.dataPos + 1, s.dataPos + 2]
      (cmdAdvance_three _ _ (by omega)) (by intro q hq; simp only [List.mem_cons, List.not_mem_nil, or_false] at hq; omega)
      (by omega) (by unfold isUnknownCmd; omega) (by omega) (by omega) (by omega)
  rw [if_neg h4]
  by_cases h5 : cmdAt s = 0x62
  · rw [if_pos h5]
    exact StepProp.mk_advance s 1 735 [s.dataPos]
      (cmdAdvance_one _ _ (by omega)) (by intro q hq; simp only [List.mem_cons, List.not_mem_nil, or_false] at hq; omega)
      (by omega) (by unfold isUnknownCmd; omega) (by omega) (by omega) (by omega)
  rw [if_neg h5]
  by_cases h6 : cmdAt s = 0x63
  · rw [if_pos h6]
    exact StepProp.mk_advance s 1 882 [s.dataPos]
      (cmdAdvance_one _ _ (by omega)) (by intro q hq; simp only [List.mem_cons, List.not_mem_nil, or_false] at hq; omega)
      (by omega) (by unfold isUnknownCmd; omega) (by omega) (by omega) (by omega)
  rw [if_neg h6]
  by_cases h7 : cmdAt s = 0x66
  · rw [if_pos h7]
    by_cases hl : s.loopOffset ≠ 0 ∧ s.loops ≠ 1
    · rw [if_pos hl]
      exact StepProp.mk_66jump s h7 hl
    · rw [if_neg hl]
      exact StepProp.mk_66stop s h7 hl
  rw [if_neg h7]
  by_cases h8 : cmdAt s = 0x67
  · rw [if_pos h8]
    exact StepProp.mk_block s h8
  rw [if_neg h8]
  by_cases h9 : cmdAt s = 0x68
  · rw [if_pos h9]
    exact StepProp.mk_advance s 0 s.waitSamples [s.dataPos]
      (cmdAdvance_zero _ _ (by omega)) (by intro q hq; simp only [List.mem_cons, List.not_mem_nil, or_false] at hq; omega)
      (by omega) (by unfold isUnknownCmd; omega) (by omega) (by omega) (by omega)
  rw [if_neg h9]
  by_cases h10 : cmdAt s = 0xA0
  · rw [if_pos h10]
    exact StepProp.mk_psg s h10
  rw [if_neg h10]
  by_cases h11 : cmdAt s = 0xB4
  · rw [if_pos h11]
    exact StepProp.mk_nes s h11
  rw [if_neg h11]
  by_cases h12 : (0xB0 ≤ cmdAt s ∧ cmdAt s ≤ 0xB3) ∨ (0xB5 ≤ cmdAt s ∧ cmdAt s ≤ 0xBF)
  · rw [if_pos h12]
    exact StepProp.mk_advance s 3 s.waitSamples [s.dataPos]
      (cmdAdvance_three _ _ (by omega)) (by intro q hq; simp only [List.mem_cons, List.not_mem_nil, or_false] at hq; omega)
      (by omega) (by unfold isUnknownCmd; omega) (by omega) (by omega) (by omega)
  rw [if_neg h12]
  by_cases h13 : cmdAt s = 0x30 ∨ cmdAt s = 0x3F
  · rw [if_pos h13]
    exact StepProp.mk_advance s 2 s.waitSamples [s.dataPos]
      (cmdAdvance_two _ _ (by omega)) (by intro q hq; simp only [List.mem_cons, List.not_mem_nil, or_false] at hq; omega)
      (by omega) (by unfold isUnknownCmd; omega) (by omega) (by omega) (by omega)
  rw [if_neg h13]
  by_cases h14 : (0xC0 ≤ cmdAt s ∧ cmdAt s ≤ 0xC8) ∨ (0xD0 ≤ cmdAt s ∧ cmdAt s ≤ 0xD6)
  · rw [if_pos h14]
    exact StepProp.mk_advance s 4 s.waitSamples [s.dataPos]
      (cmdAdvance_four _ _ (by omega)) (by intro q hq; simp only [List.mem_cons, List.not_mem_nil, or_false] at hq; omega)
      (by omega) (by unfold isUnknownCmd; omega) (by omega) (by omega) (by omega)
  rw [if_neg h14]
  by_cases h15 : cmdAt s = 0xE0 ∨ cmdAt s = 0xE1
  · rw [if_pos h15]
    exact StepProp.mk_advance s 5 s.waitSamples [s.dataPos]
      (cmdAdvance_five _ _ (by omega)) (by intro q hq; simp only [List.mem_cons, List.not_mem_nil, or_false] at hq; omega)
      (by omega) (by unfold isUnknownCmd; omega) (by omega) (by omega) (by omega)
  rw [if_neg h15]
  by_cases h16 : 0x70 ≤ cmdAt s ∧ cmdAt s ≤ 0x7F
  · rw [if_pos h16]
    exact StepProp.mk_advance s 1 (cmdAt s % 16 + 1) [s.dataPos]
      (cmdAdvance_one _ _ (by omega)) (by intro q hq; simp only [List.mem_cons, List.not_mem_nil, or_false] at hq; omega)
      (by omega) (by unfold isUnknownCmd; omega) (by omega) (by omega) (by omega)
  rw [if_neg h16]
  by_cases h17 : 0x80 ≤ cmdAt s ∧ cmdAt s ≤ 0x8F
  · rw [if_pos h17]
    exact StepProp.mk_advance s 1 s.waitSamples [s.dataPos]
      (cmdAdvance_one _ _ (by omega)) (by intro q hq; simp only [List.mem_cons, List.not_mem_nil, or_false] at hq; omega)
      (by omega) (by unfold isUnknownCmd; omega) (by omega) (by omega) (by omega)
  rw [if_neg h17]
  by_cases h18 : 0x90 ≤ cmdAt s ∧ cmdAt s ≤ 0x95
  · rw [if_pos h18]
    exact StepProp.mk_advance s 0 s.waitSamples [s.dataPos]
      (cmdAdvance_zero _ _ (by omega)) (by intro q hq; simp only [List.mem_cons, List.not_mem_nil, or_false] at hq; omega)
      (by omega) (by unfold isUnknownCmd; omega) (by omega) (by omega) (by omega)
  rw [if_neg h18]
  by_cases h19 : 0x32 ≤ cmdAt s ∧ cmdAt s ≤ 0x3E
  · rw [if_pos h19]
    exact StepProp.mk_advance s 2 s.waitSamples [s.dataPos]
      (cmdAdvance_two _ _ (by omega)) (by intro q hq; simp only [List.mem_cons, List.not_mem_nil, or_false] at hq; omega)
      (by omega) (by unfold isUnknownCmd; omega) (by omega) (by omega) (by omega)
  rw [if_neg h19]
  by_cases h20 : 0x40 ≤ cmdAt s ∧ cmdAt s ≤ 0x4E
  · rw [if_pos h20]
    exact StepProp.mk_advance s 3 s.waitSamples [s.dataPos]
      (cmdAdvance_three _ _ (by omega)) (by intro q hq; simp only [List.mem_cons, List.not_mem_nil, or_false] at hq; omega)
      (by omega) (by unfold isUnknownCmd; omega) (by omega) (by omega) (by omega)
  rw [if_neg h20]
  by_cases h21 : 0xA1 ≤ cmdAt s ∧ cmdAt s ≤ 0xAF
  · rw [if_pos h21]
    exact StepProp.mk_advance s 3 s.waitSamples [s.dataPos]
      (cmdAdvance_three _ _ (by omega)) (by intro q hq; simp only [List.mem_cons, List.not_mem_nil, or_false] at hq; omega)
      (by omega) (by unfold isUnknownCmd; omega) (by omega) (by omega) (by omega)
  rw [if_neg h21]
  by_cases h22 : (0xC9 ≤ cmdAt s ∧ cmdAt s ≤ 0xCF) ∨ (0xD7 ≤ cmdAt s ∧ cmdAt s ≤ 0xDF)
  · rw [if_pos h22]
    exact StepProp.mk_advance s 4 s.waitSamples [s.dataPos]
      (cmdAdvance_four _ _ (by omega)) (by intro q hq; simp only [List.mem_cons, List.not_mem_nil, or_false] at hq; omega)
      (by omega) (by unfold isUnknownCmd; omega) (by omega) (by omega) (by omega)
  rw [if_neg h22]
  by_cases h23 : 0xE2 ≤ cmdAt s
  · rw [if_pos h23]
    exact StepProp.mk_advance s 5 s.waitSamples [s.dataPos]
      (cmdAdvance_five _ _ (by omega)) (by intro q hq; simp only [List.mem_cons, List.not_mem_nil, or_false] at hq; omega)
      (by omega) (by unfold isUnknownCmd; omega) (by omega) (by omega) (by omega)
  rw [if_neg h23]
  exact StepProp.mk_unknown s (by unfold isUnknownCmd; omega)

/-- C1 (amended): for every session state, `nextCommand` either succeeds and
advances the cursor by exactly the operand length of its dispatch tables
(`cmdAdvance`; 0 for 0x68 and 0x90-0x95, whose handlers do not move the
cursor), or performs the 0x66 rewind to the loop offset, or returns false
(0x66 end of stream, or a command byte outside every documented and reserved
range).  Every byte position it dereferences lies within 6 bytes after the
command byte — the position is never compared against the image size, so on
a stream truncated mid-command those reads fall past the end of the image. -/
theorem nextCommand_coverage (s : VgmState) :
    ((nextCommand s).ok = true ∧
        ((nextCommand s).st.dataPos =
            s.dataPos + cmdAdvance (cmdAt s) (blockLenAt s.rawData s.dataPos) ∨
          (cmdAt s = 0x66 ∧ (nextCommand s).st.dataPos = s.loopOffset)) ∨
      ((nextCommand s).ok = false ∧ (nextCommand s).st = s ∧
        (cmdAt s = 0x66 ∨ isUnknownCmd (cmdAt s)))) ∧
    ∀ q ∈ (nextCommand s).reads, s.dataPos ≤ q ∧ q ≤ s.dataPos + 6 :=
  ⟨(nextCommand_cases s).1, (nextCommand_cases s).2.1⟩

/-- C1 counterexample: on the opened image `file1` (size 128) the very first
`nextCommand` dereferences positions 127, 128 and 129 — the two operand
bytes of the 0x61 at the end of the image lie past the end of the file —
and still reports success; and on the opened image `file2` the 0x68 command
succeeds while advancing the cursor by 0, which is no documented operand
length (a 0x68 PCM RAM write is documented with 11 operand bytes). -/
theorem nextCommand_reads_past_end :
    ((openVgm file1).map (fun s =>
        ((nextCommand s).ok, (nextCommand s).reads.filter (fun q => s.size ≤ q), s.size)) =
      some (true, [128, 129], 128)) ∧
    cmdAt st2 = 0x68 ∧ (nextCommand st2).ok = true ∧
    (nextCommand st2).st.dataPos = st2.dataPos :=
  ⟨by decide, by decide, by decide, by decide⟩

/-- Witness for C1 at the concrete state `st2`: position 64 is read by the
step there and lies within 6 bytes of the cursor. -/
theorem nextCommand_coverage_witness : st2.dataPos ≤ 64 ∧ 64 ≤ st2.dataPos + 6 :=
  (nextCommand_coverage st2).2 64 (by decide)

/-- Inversion of a successful `openVgm`: the three header checks passed and
every field of the session state has its initial value. -/
theorem openVgm_fields (d : List Nat) (s0 : VgmState) (h : openVgm d = some s0) :
    s0.rawData = d ∧ s0.loops = (if readU32 d 0x1C ≠ 0 then 2 else 1) ∧
    s0.jumps = 0 ∧
    s0.loopOffset = (if readU32 d 0x1C ≠ 0 then 0x1C + readU32 d 0x1C else 0) ∧
    s0.hasMsxChip = decide (readU32 d 0x7C ≠ 0) ∧
    s0.hasNesChip = decide (readU32 d 0x7C = 0 ∧ readU32 d 0x78 ≠ 0) ∧
    s0.waitSamples = 0 := by
  unfold openVgm at h
  by_cases h1 : d.length < vgmHeaderSize
  · rw [if_pos h1] at h; exact Option.noConfusion h
  rw [if_neg h1] at h
  by_cases h2 : readU32 d 0 ≠ 0x206D6756
  · rw [if_pos h2] at h; exact Option.noConfusion h
  rw [if_neg h2] at h
  by_cases h3 : readU32 d 4 ≠ d.length - 4
  · rw [if_pos h3] at h; exact Option.noConfusion h
  rw [if_neg h3] at h
  injection h with h'
  subst h'
  exact ⟨rfl, rfl, rfl, rfl, rfl, rfl, rfl⟩

/-- Along any run of successful `nextCommand` steps, the image and the loop
offset never change, `loops` stays at least 1, and `loops + jumps` is
constant: every 0x66 rewind trades one unit of `loops` for one `jumps`. -/
theorem iterCmd_invariant (s0 : VgmState) (h0 : 1 ≤ s0.loops) :
    ∀ n s, iterCmd s0 n = some s →
      s.rawData = s0.rawData ∧ s.loopOffset = s0.loopOffset ∧
      1 ≤ s.loops ∧ s.loops + s.jumps = s0.loops + s0.jumps := by
  intro n
  induction n with
  | zero =>
      intro s h
      obtain rfl : s0 = s := by simpa [iterCmd] using h
      exact ⟨rfl, rfl, h0, rfl⟩
  | succ n ih =>
      intro s h
      unfold iterCmd at h
      cases hit : iterCmd s0 n with
      | none => rw [hit] at h; exact Option.noConfusion h
      | some t =>
          rw [hit] at h
          dsimp only at h
          obtain ⟨hraw, hLO, hge, hsum⟩ := ih t hit
          by_cases hok : (nextCommand t).ok
          · rw [if_pos hok] at h
            injection h with h'
            subst h'
            have hB := (nextCommand_cases t).2.2.1
            by_cases h66 : cmdAt t = 0x66
            · have hD := (nextCommand_cases t).2.2.2.2.1 h66
              by_cases hc : t.loopOffset ≠ 0 ∧ t.loops ≠ 1
              · obtain ⟨-, -, hloops, hjumps, -⟩ := hD.1 hc
                have ht0 : t.loops ≠ 0 := by omega
                rw [if_pos ht0] at hloops
                exact ⟨hB.1.trans hraw, hB.2.2.1.trans hLO, by omega, by omega⟩
              · have hr := hD.2 hc
                rw [hr] at hok
                simp at hok
            · have hC := (nextCommand_cases t).2.2.2.1 h66
              exact ⟨hB.1.trans hraw, hB.2.2.1.trans hLO, by omega, by omega⟩
          · rw [if_neg hok] at h
            exact Option.noConfusion h

/-- C4: for every VGM opened with a nonzero header loop offset, the loop
countdown starts at 2 (ghost jump counter 0); along every run of commands at
most one rewind ever happens, and at a 0x66: if `loops ≠ 1` the interpreter
succeeds, sets the cursor to `0x1C + loop_offset` (an offset from
`m_rawData`), decrements `loops` and counts the jump; if `loops = 1` it
reports end of stream, at which point exactly one rewind has happened. -/
theorem vgm_loop_semantics (d : List Nat) (s0 : VgmState)
    (hopen : openVgm d = some s0) (hloop : readU32 d 0x1C ≠ 0) :
    s0.loops = 2 ∧ s0.jumps = 0 ∧ s0.loopOffset = 0x1C + readU32 d 0x1C ∧
    ∀ n s, iterCmd s0 n = some s →
      s.jumps ≤ 1 ∧
      (cmdAt s = 0x66 → s.loops ≠ 1 →
        (nextCommand s).ok = true ∧
        (nextCommand s).st.dataPos = 0x1C + readU32 d 0x1C ∧
        (nextCommand s).st.loops = s.loops - 1 ∧
        (nextCommand s).st.jumps = s.jumps + 1) ∧
      (cmdAt s = 0x66 → s.loops = 1 → (nextCommand s).ok = false ∧ s.jumps = 1) := by
  obtain ⟨hraw, hloops, hjumps, hLO, -, -, -⟩ := openVgm_fields d s0 hopen
  rw [if_pos hloop] at hloops hLO
  refine ⟨hloops, hjumps, hLO, ?_⟩
  intro n s hs
  obtain ⟨hraw', hLO', hge, hsum⟩ := iterCmd_invariant s0 (by omega) n s hs
  rw [hloops, hjumps] at hsum
  refine ⟨by omega, ?_, ?_⟩
  · intro h66 hne1
    have hD := (nextCommand_cases s).2.2.2.2.1 h66
    have hcond : s.loopOffset ≠ 0 ∧ s.loops ≠ 1 := ⟨by rw [hLO', hLO]; omega, hne1⟩
    obtain ⟨hok, hdp, hlp, hjp, -⟩ := hD.1 hcond
    refine ⟨hok, by rw [hdp, hLO', hLO], ?_, hjp⟩
    rw [hlp, if_pos (by omega : s.loops ≠ 0)]
  · intro h66 he1
    have hD := (nextCommand_cases s).2.2.2.2.1 h66
    have hcond : ¬(s.loopOffset ≠ 0 ∧ s.loops ≠ 1) := fun hc => hc.2 he1
    have hr := hD.2 hcond
    exact ⟨by rw [hr], by omega⟩

/-- Witness for C4 at the concrete looped VGM `file4`. -/
theorem vgm_loop_semantics_witness : st4.loops = 2 ∧ st4.jumps = 0 :=
  ⟨(vgm_loop_semantics file4 st4 (by decide) (by decide)).1,
    (vgm_loop_semantics file4 st4 (by decide) (by decide)).2.1⟩

/-- C8: with no wait pending and the cursor on a command byte outside every
documented and reserved range, the decode loop returns the bytes decoded so
far (`acc`), with the state unchanged: no further command is processed. -/
theorem decode_stops_on_unknown (oracle : Nat → Nat) (fuel : Nat) (s : VgmState)
    (acc maxSize : Nat) (hfuel : 1 ≤ fuel) (hcmd : isUnknownCmd (cmdAt s))
    (hwait : s.waitSamples = 0) :
    decodeVgmLoop oracle fuel s acc maxSize = some (acc, s) := by
  obtain ⟨m, rfl⟩ : ∃ m, fuel = m + 1 := ⟨fuel - 1, by omega⟩
  have hnc : nextCommand s = ⟨false, s, [s.dataPos], []⟩ :=
    (nextCommand_cases s).2.2.2.2.2.1 hcmd
  unfold decodeVgmLoop
  by_cases h1 : acc + 4 ≤ maxSize
  · rw [if_pos h1, if_pos hwait]
    by_cases h3 : s.duration ≠ 0 ∧ s.duration ≤ s.samplesPlayed
    · rw [if_pos h3]
    · rw [if_neg h3, hnc]
      simp
  · rw [if_neg h1]

/-- Witness for C8 at the concrete state `s8`. -/
theorem decode_stops_on_unknown_witness :
    decodeVgmLoop (fun _ => 0) 1 s8 0 100 = some (0, s8) :=
  decode_stops_on_unknown (fun _ => 0) 1 s8 0 100 (by decide) (by decide) (by decide)

/-- C9: `openVgm` instantiates at most one chip — the PSG iff
`ay8910_clock ≠ 0`, else the NES APU iff `nes_apu_clock ≠ 0`; a 0xA0
command always performs the PSG register write and 0xB4 the NES APU write,
with no check that the chip exists (the access list is nonempty no matter
what `hasMsxChip`/`hasNesChip` are); the 0x67 data-block handler, by
contrast, touches no chip when the NES APU is absent. -/
theorem chip_write_unguarded :
    (∀ d s0, openVgm d = some s0 →
      ¬(s0.hasMsxChip ∧ s0.hasNesChip) ∧
        (s0.hasMsxChip ↔ readU32 d 0x7C ≠ 0) ∧
        (s0.hasNesChip ↔ readU32 d 0x7C = 0 ∧ readU32 d 0x78 ≠ 0)) ∧
    (∀ s, cmdAt s = 0xA0 →
      (nextCommand s).acc =
        [ChipAccess.psgWrite (byteAt s.rawData (s.dataPos + 1))
          (byteAt s.rawData (s.dataPos + 2))]) ∧
    (∀ s, cmdAt s = 0xB4 →
      (nextCommand s).acc =
        [ChipAccess.nesWrite (byteAt s.rawData (s.dataPos + 1))
          (byteAt s.rawData (s.dataPos + 2))]) ∧
    (∀ s, cmdAt s = 0x67 → s.hasNesChip = false → (nextCommand s).acc = []) := by
  refine ⟨?_, fun s h => (nextCommand_cases s).2.2.2.2.2.2.1 h,
    fun s h => (nextCommand_cases s).2.2.2.2.2.2.2.1 h, fun s h hn => ?_⟩
  · intro d s0 hopen
    obtain ⟨-, -, -, -, hm, hnes, -⟩ := openVgm_fields d s0 hopen
    rw [hm, hnes]
    refine ⟨?_, ?_, ?_⟩ <;> (simp only [decide_eq_true_eq]; try tauto)
  · have hH := (nextCommand_cases s).2.2.2.2.2.2.2.2.1 h
    rw [hH, hn]
    simp

/-- Witness for C9: at `s9` (no PSG present) the 0xA0 command still performs
the PSG write. -/
theorem chip_write_unguarded_witness :
    (nextCommand s9).acc = [ChipAccess.psgWrite 7 42] ∧ s9.hasMsxChip = false :=
  ⟨(chip_write_unguarded.2.1 s9 (by decide)).trans (by decide), by decide⟩

/-- C3 (amended): for every image carrying the "Vgm " magic, `open` accepts
exactly when the image is at least `sizeof(VgmHeader)` bytes and
`eof_offset` equals `size - 4`; `vgm_data_offset` takes no part in the
decision. -/
theorem open_header_checks (d : List Nat) (initOk : Bool)
    (hmagic : readU32 d 0 = 0x206D6756) :
    openFile d initOk = true ↔ vgmHeaderSize ≤ d.length ∧ readU32 d 4 = d.length - 4 := by
  have hnsf : openNsfOk d initOk = false := by
    unfold openNsfOk
    by_cases h1 : d.length < nsfHeaderSize
    · rw [if_pos h1]
    · rw [if_neg h1, if_pos (by rw [hmagic]; decide)]
  unfold openFile
  rw [hnsf, Bool.or_false]
  unfold openVgm
  by_cases h1 : d.length < vgmHeaderSize
  · rw [if_pos h1]
    simp only [Option.isSome_none, Bool.false_eq_true, false_iff]
    intro hc
    exact absurd hc.1 (by omega)
  rw [if_neg h1]
  by_cases h2 : readU32 d 0 ≠ 0x206D6756
  · exact absurd hmagic h2
  rw [if_neg h2]
  by_cases h3 : readU32 d 4 ≠ d.length - 4
  · rw [if_pos h3]
    simp only [Option.isSome_none, Bool.false_eq_true, false_iff]
    intro hc
    exact h3 hc.2
  rw [if_neg h3]
  simp only [Option.isSome_some, true_iff]
  exact ⟨by omega, by omega⟩

/-- C3 counterexample: `open` accepts `file3` although
`vgm_data_offset + 0x34` (268435507) is far beyond the 128-byte image — the
claimed `vgm_data_offset + 0x34 ≤ size` check does not exist — and the
cursor is parked at that out-of-range position. -/
theorem open_ignores_data_offset :
    openFile file3 false = true ∧
    0x150 ≤ readU32 file3 8 ∧
    file3.length < readU32 file3 0x34 + 0x34 ∧
    (openVgm file3).map VgmState.dataPos = some 268435507 := by
  refine ⟨by decide, by decide, by decide, by decide⟩

/-- Witness for C3 at the concrete image `file3` (which carries the magic). -/
theorem open_header_checks_witness :
    openFile file3 false = true ↔
      vgmHeaderSize ≤ file3.length ∧ readU32 file3 4 = file3.length - 4 :=
  open_header_checks file3 false (by decide)

/-- C7 counterexample: the silence scenario S1 (header + `0x62` + `0x66`,
no chips declared) does not return 0 bytes: with a 4-byte buffer
`decodePcm` already returns 4. -/
theorem silence_scenario_nonzero :
    openVgm file7 = some st7 ∧
    decodePcm (fun _ => 0) (fun _ => 0) 800 st7 4 = some 4 ∧ (4 : Nat) ≠ 0 :=
  ⟨by decide, by decide, by decide⟩

/-- C7 (amended): the wait command still pumps (silent) frames — the S1
scenario decodes the full 735 frames of the `0x62` wait, 2940 bytes, for
any buffer that holds them. -/
theorem silence_scenario_bytes :
    decodePcm (fun _ => 0) (fun _ => 0) 800 st7 4096 = some 2940 ∧
    decodePcm (fun _ => 0) (fun _ => 0) 800 st7 2940 = some 2940 :=
  ⟨by decide, by decide⟩

/-- Frame-count bounds of the VGM decode loop: the result grows from `acc`,
stays within `maxSize` once it moves, and moves in whole 4-byte frames. -/
theorem decodeVgmLoop_bounds (oracle : Nat → Nat) :
    ∀ fuel s acc maxSize r s1,
      decodeVgmLoop oracle fuel s acc maxSize = some (r, s1) →
      acc ≤ r ∧ (r = acc ∨ r ≤ maxSize) ∧ 4 ∣ (r - acc) := by
  intro fuel
  induction fuel with
  | zero => intro s acc maxSize r s1 h; exact Option.noConfusion h
  | succ n ih =>
      intro s acc maxSize r s1 h
      unfold decodeVgmLoop at h
      by_cases h1 : acc + 4 ≤ maxSize
      · rw [if_pos h1] at h
        by_cases h2 : s.waitSamples = 0
        · rw [if_pos h2] at h
          by_cases h3 : s.duration ≠ 0 ∧ s.duration ≤ s.samplesPlayed
          · rw [if_pos h3] at h
            obtain ⟨rfl, rfl⟩ : acc = r ∧ s = s1 := by simpa using h
            exact ⟨Nat.le_refl _, Or.inl rfl, by simp⟩
          · rw [if_neg h3] at h
            by_cases h4 : (nextCommand s).ok = true
            · rw [if_pos h4] at h
              exact ih _ _ _ _ _ h
            · rw [if_neg h4] at h
              obtain ⟨rfl, rfl⟩ : acc = r ∧ (nextCommand s).st = s1 := by simpa using h
              exact ⟨Nat.le_refl _, Or.inl rfl, by simp⟩
        · rw [if_neg h2] at h
          by_cases h5 : 44100 ≤ (sampleTick oracle s).writeCounter
          · rw [if_pos h5] at h
            obtain ⟨ha, hb, hc⟩ := ih _ _ _ _ _ h
            refine ⟨by omega, ?_, by omega⟩
            rcases hb with rfl | hb
            · exact Or.inr (by omega)
            · exact Or.inr hb
          · rw [if_neg h5] at h
            exact ih _ _ _ _ _ h
      · rw [if_neg h1] at h
        obtain ⟨rfl, rfl⟩ : acc = r ∧ s = s1 := by simpa using h
        exact ⟨Nat.le_refl _, Or.inl rfl, by simp⟩

/-- Frame-count bounds of the NSF decode loop, as for the VGM loop. -/
theorem decodeNfsLoop_bounds (oracle : Nat → Nat) (playRes : Nat → Int) :
    ∀ fuel s acc maxSize r s1,
      decodeNfsLoop oracle playRes fuel s acc maxSize = some (r, s1) →
      acc ≤ r ∧ (r = acc ∨ r ≤ maxSize) ∧ 4 ∣ (r - acc) := by
  intro fuel
  induction fuel with
  | zero => intro s acc maxSize r s1 h; exact Option.noConfusion h
  | succ n ih =>
      intro s acc maxSize r s1 h
      unfold decodeNfsLoop at h
      by_cases h1 : acc + 4 ≤ maxSize
      · rw [if_pos h1] at h
        by_cases h2 : s.waitSamples = 0
        · rw [if_pos h2] at h
          by_cases h3 : s.duration ≠ 0 ∧ s.duration ≤ s.samplesPlayed
          · rw [if_pos h3] at h
            obtain ⟨rfl, rfl⟩ : acc = r ∧ s = s1 := by simpa using h
            exact ⟨Nat.le_refl _, Or.inl rfl, by simp⟩
          · rw [if_neg h3] at h
            by_cases h4 : playRes s.playCalls < 0
            · rw [if_pos h4] at h
              obtain ⟨rfl, rfl⟩ : acc = r ∧ s = s1 := by simpa using h
              exact ⟨Nat.le_refl _, Or.inl rfl, by simp⟩
            · rw [if_neg h4] at h
              by_cases h5 : playRes s.playCalls = 0
              · rw [if_pos h5] at h
                obtain ⟨rfl, rfl⟩ : acc = r ∧ s = s1 := by simpa using h
                exact ⟨Nat.le_refl _, Or.inl rfl, by simp⟩
              · rw [if_neg h5] at h
                exact ih _ _ _ _ _ h
        · rw [if_neg h2] at h
          by_cases h6 : 44100 ≤ (sampleTick oracle s).writeCounter
          · rw [if_pos h6] at h
            obtain ⟨ha, hb, hc⟩ := ih _ _ _ _ _ h
            refine ⟨by omega, ?_, by omega⟩
            rcases hb with rfl | hb
            · exact Or.inr (by omega)
            · exact Or.inr hb
          · rw [if_neg h6] at h
            exact ih _ _ _ _ _ h
      · rw [if_neg h1] at h
        obtain ⟨rfl, rfl⟩ : acc = r ∧ s = s1 := by simpa using h
        exact ⟨Nat.le_refl _, Or.inl rfl, by simp⟩

/-- C10: whichever path `decodePcm` takes (VGM or NSF), a returned byte
count `r` satisfies `r ≤ maxSize` and is a whole number of 4-byte stereo
frames; a frame is only ever emitted while at least 4 bytes of space
remain. -/
theorem decodePcm_frame_bounds (oracle : Nat → Nat) (playRes : Nat → Int) (fuel : Nat)
    (s : VgmState) (maxSize r : Nat)
    (h : decodePcm oracle playRes fuel s maxSize = some r) :
    r ≤ maxSize ∧ r % 4 = 0 := by
  unfold decodePcm at h
  by_cases hn : s.isNsf
  · rw [if_pos hn] at h
    rw [Option.map_eq_some'] at h
    obtain ⟨⟨r', s1⟩, hloop, hr⟩ := h
    obtain ⟨-, hb, hc⟩ := decodeNfsLoop_bounds oracle playRes fuel s 0 maxSize r' s1 hloop
    subst hr
    rcases hb with rfl | hb <;> omega
  · rw [if_neg hn] at h
    rw [Option.map_eq_some'] at h
    obtain ⟨⟨r', s1⟩, hloop, hr⟩ := h
    obtain ⟨-, hb, hc⟩ := decodeVgmLoop_bounds oracle fuel s 0 maxSize r' s1 hloop
    subst hr
    rcases hb with rfl | hb <;> omega

/-- Witness for C10 at the concrete S1 session: 4 bytes into a 4-byte
buffer. -/
theorem decodePcm_frame_bounds_witness : (4 : Nat) ≤ 4 ∧ (4 : Nat) % 4 = 0 :=
  decodePcm_frame_bounds (fun _ => 0) (fun _ => 0) 800 st7 4 4 (by decide)

end VgmSpec
